import Mathlib

/-!
Verification of the concurrent ingestion-and-aggregation engine of
`kick_live_cli.py` (kick-analytics-suite), as a shallow embedding.

Timestamps produced by `time.time()` are modelled as rationals (`Time := ℚ`):
every claim about the windowing logic is order-theoretic, so the rationals are
a faithful executable stand-in for real-valued wall-clock time.
-/

namespace KickLive

abbrev Time := ℚ

/-! ## Sliding-window aggregator state

The shared mutable state of `run_live` (lines 181-192 of the source):
`events` (a deque of `(timestamp, username)` pairs), `total_messages`,
`unique_users` (a Python set, modelled as a duplicate-free list in insertion
order) and `user_counts` (a Python dict, modelled as an association list in
insertion order, which is first-seen order). -/

structure AggState where
  events : List (Time × String)
  totalMessages : Nat
  uniqueUsers : List String
  userCounts : List (String × Nat)
  deriving DecidableEq

def initState : AggState := ⟨[], 0, [], []⟩

/-- `user_counts[username] = user_counts.get(username, 0) + 1` on a dict in
insertion order: an existing key keeps its position, a new key is appended. -/
def bump : List (String × Nat) → String → List (String × Nat)
  | [], u => [(u, 1)]
  | (k, c) :: rest, u => if k = u then (k, c + 1) :: rest else (k, c) :: bump rest u

/-- The critical section of `listen` (lines 394-399): all four structures are
updated in one atomic step under the single lock. -/
def record (st : AggState) (t : Time) (u : String) : AggState :=
  { events := st.events ++ [(t, u)]
    totalMessages := st.totalMessages + 1
    uniqueUsers := if u ∈ st.uniqueUsers then st.uniqueUsers else st.uniqueUsers ++ [u]
    userCounts := bump st.userCounts u }

/-- Line 240-241: `while events and events[0][0] < now - 60: events.popleft()`. -/
def evict (evs : List (Time × String)) (now : Time) : List (Time × String) :=
  evs.dropWhile (fun e => e.1 < now - 60)

/-- The comparison key of line 248: `sorted(..., key=lambda kv: kv[1], reverse=True)`
sorts by count descending. -/
def countGE (a b : String × Nat) : Prop := b.2 ≤ a.2

instance : DecidableRel countGE := fun a b => inferInstanceAs (Decidable (b.2 ≤ a.2))

instance : IsTotal (String × Nat) countGE := ⟨fun a b => Nat.le_total b.2 a.2⟩

instance : IsTrans (String × Nat) countGE :=
  ⟨fun _ _ _ h1 h2 => Nat.le_trans h2 h1⟩

/-- Line 248: `sorted(user_counts.items(), key=lambda kv: kv[1], reverse=True)[:3]`.
Python's `sorted` is stable, and `List.insertionSort countGE` is exactly the
stable sort by count descending (an element is inserted in front of a later
element `b` iff `b.2 ≤ a.2`, so equal counts keep their input order). -/
def topUsers (counts : List (String × Nat)) : List (String × Nat) :=
  (List.insertionSort countGE counts).take 3

/-- The values computed inside the lock on lines 242-249. -/
structure Stats where
  per_min : Nat
  per_sec : Nat
  uniq_min : Nat
  uniq_sec : Nat
  msg_total : Nat
  uniq_total : Nat
  top_users : List (String × Nat)
  deriving DecidableEq

/-- One pass of the locked section of `stats_loop` (lines 239-249): evict
entries older than the 60-unit horizon, then read all windowed and lifetime
statistics. The eviction mutates the deque, so the new state is returned
alongside the stats. Python set cardinalities `len({...})` are modelled as
`List.dedup.length`. -/
def queryStep (st : AggState) (now : Time) : Stats × AggState :=
  let evs := evict st.events now
  let lastSec := evs.filter (fun e => now - 1 ≤ e.1)
  (⟨evs.length, lastSec.length, ((evs.map Prod.snd).dedup).length,
    ((lastSec.map Prod.snd).dedup).length, st.totalMessages, st.uniqueUsers.length,
    topUsers st.userCounts⟩,
   { st with events := evs })

/-- The two operations that touch the aggregator state during a session:
a message arrival (`listen`) and a stats tick (`stats_loop`). -/
inductive AggOp where
  | msg (t : Time) (u : String)
  | query (now : Time)

def applyOp (st : AggState) : AggOp → AggState
  | .msg t u => record st t u
  | .query now => (queryStep st now).2

/-- Every aggregator state reachable in a session arises this way. -/
def runOps (ops : List AggOp) : AggState := ops.foldl applyOp initState

/-! ## Clamped-age windowing (modelled from the spec, for claim C1)

The spec describes the windowing in terms of event ages clamped to
nonnegative: an event's age is `max (now - t) 0`; it is evicted when its
clamped age exceeds 60 and counted in the 1-unit window when its clamped age
is at most 1. -/

def clampedAge (now t : Time) : Time := max (now - t) 0

def evictClamped (evs : List (Time × String)) (now : Time) : List (Time × String) :=
  evs.dropWhile (fun e => 60 < clampedAge now e.1)

/-- `queryStep` with every window test phrased over the clamped nonnegative
age, following the spec's words. -/
def queryStepClamped (st : AggState) (now : Time) : Stats × AggState :=
  let evs := evictClamped st.events now
  let lastSec := evs.filter (fun e => clampedAge now e.1 ≤ 1)
  (⟨evs.length, lastSec.length, ((evs.map Prod.snd).dedup).length,
    ((lastSec.map Prod.snd).dedup).length, st.totalMessages, st.uniqueUsers.length,
    topUsers st.userCounts⟩,
   { st with events := evs })

/-! ## Listener frame handling (claim C10)

Lines 390-407: extraction of the username from a parsed chat-message frame and
the resulting record + log write. Python truthiness: `data.get("sender") or {}`
replaces a missing (or null) sender object by `{}`, and
`... .get("username") or "anon"` replaces a missing or empty username by
`"anon"`. -/

structure Sender where
  username : Option String
  deriving DecidableEq

structure ChatData where
  sender : Option Sender
  content : Option String
  deriving DecidableEq

/-- Line 391: `username = (data.get("sender") or {}).get("username") or "anon"`. -/
def extractUsername (d : ChatData) : String :=
  match d.sender with
  | none => "anon"
  | some s =>
    match s.username with
    | none => "anon"
    | some u => if u = "" then "anon" else u

/-- The `username`/`message` fields of the log record written on lines 401-407. -/
structure MessageRecord where
  username : String
  message : String
  deriving DecidableEq

/-- Lines 390-407: one chat-message frame is turned into a `record` call on the
shared state and a message record for the log. -/
def handleChatFrame (st : AggState) (now : Time) (d : ChatData) :
    AggState × MessageRecord :=
  let username := extractUsername d
  let content := match d.content with | none => "" | some c => c
  (record st now username, ⟨username, content⟩)

/-- `user_counts.get(u, 0)`: the per-actor lifetime count with default 0. -/
def lookupCount : List (String × Nat) → String → Nat
  | [], _ => 0
  | (k, c) :: rest, u => if k = u then c else lookupCount rest u

/-! ## Snapshot-tick capture gating (claim C4)

Lines 277-278: `if screenshot_on_snapshot and (screenshot_task is None or
screenshot_task.done()): screenshot_task = asyncio.create_task(capture_once())`.
The tick either starts a fresh capture task (when no task exists or the last
one is done) or skips. We model the scheduler's view as a boolean
`taskPending` (a task exists and is not done) together with `inFlight`, the
number of capture invocations started through this path and not yet finished;
the events are snapshot ticks and completions of the pending capture. -/

structure CadState where
  taskPending : Bool
  inFlight : Nat
  deriving DecidableEq

inductive CadEvent where
  | tick
  | finish
  deriving DecidableEq

def cadInit : CadState := ⟨false, 0⟩

def cadStep (s : CadState) : CadEvent → CadState
  | .tick => if s.taskPending then s else ⟨true, s.inFlight + 1⟩
  | .finish => if s.taskPending then ⟨false, s.inFlight - 1⟩ else s

def cadRun (evs : List CadEvent) : CadState := evs.foldl cadStep cadInit

/-! ## Capture coordinator (claims C3 and C5)

`capture_once` (lines 288-358), embedded as a pure function over an
environment describing the behaviour of the two external `ffmpeg` invocations
(the primary single-frame capture with its 15-unit timeout bound, and the
thumbnail re-encode with its 10-unit bound). The function returns the updated
shared state together with the list of process-level actions taken, so that
claims about which process was spawned or killed can be stated. The base64
encoding of the thumbnail bytes is kept abstract (the raw stdout string is
stored); no claim inspects the encoded content. -/

inductive ProcAction where
  | spawnPrimary
  | killPrimary
  | spawnThumb
  | killThumb
  deriving DecidableEq

structure CapEnv where
  ffmpegMissing : Bool
  primaryTimesOut : Bool
  primaryReturncode : Int
  thumbTimesOut : Bool
  thumbReturncode : Int
  thumbStdout : String
  deriving DecidableEq

structure CapState where
  latest_screenshot : Option String
  latest_screenshot_b64 : Option String
  screenshot_paths : List String
  disk : List String
  stopSet : Bool
  deriving DecidableEq

def capInit : CapState := ⟨none, none, [], [], false⟩

/-- Lines 319-324: `while len(screenshot_paths) > screenshot_max: old_path =
screenshot_paths.popleft(); try: old_path.unlink() except Exception: pass`.
`delOk` is the oracle for whether a given `unlink` succeeds; a failed deletion
is swallowed and the file stays on disk. `disk` is the list of files currently
existing (`erase` removes the first occurrence). -/
def evictOld (maxI : Int) (delOk : String → Bool) :
    List String → List String → List String × List String
  | [], disk => ([], disk)
  | old :: rest, disk =>
    if maxI < ((old :: rest).length : Int) then
      evictOld maxI delOk rest (if delOk old then disk.erase old else disk)
    else (old :: rest, disk)

/-- `capture_once` (lines 288-358). On success the primary capture writes
`output_path` to disk and updates the shared state under the lock (lines
312-324); with embedding enabled a second invocation re-encodes the thumbnail
(lines 325-348). A `FileNotFoundError` from spawning stops the whole session
(lines 349-352). On `asyncio.TimeoutError` the handler (lines 353-356) kills
the process bound to the variable `proc` — which is always the PRIMARY
process, even when it is the thumbnail invocation that timed out. Any other
exception is swallowed (lines 357-358). -/
def captureOnce (screenshot_embed : Bool) (screenshot_max : Option Int)
    (delOk : String → Bool) (env : CapEnv) (st : CapState) (output_path : String) :
    CapState × List ProcAction :=
  if env.ffmpegMissing then
    ({ st with stopSet := true }, [])
  else if env.primaryTimesOut then
    (st, [.spawnPrimary, .killPrimary])
  else
    let st1 :=
      if env.primaryReturncode = 0 then
        let base := { st with
          latest_screenshot := some output_path
          latest_screenshot_b64 :=
            if screenshot_embed then none else st.latest_screenshot_b64
          disk := st.disk ++ [output_path] }
        match screenshot_max with
        | some m =>
          if m ≠ 0 then
            let p := evictOld m delOk (base.screenshot_paths ++ [output_path]) base.disk
            { base with screenshot_paths := p.1, disk := p.2 }
          else base
        | none => base
      else st
    if env.primaryReturncode = 0 ∧ screenshot_embed = true then
      if env.thumbTimesOut then
        (st1, [.spawnPrimary, .spawnThumb, .killPrimary])
      else if env.thumbReturncode = 0 ∧ env.thumbStdout ≠ "" then
        ({ st1 with latest_screenshot_b64 := some env.thumbStdout },
         [.spawnPrimary, .spawnThumb])
      else (st1, [.spawnPrimary, .spawnThumb])
    else (st1, [.spawnPrimary])

/-- An environment in which every external invocation succeeds. -/
def envOk : CapEnv := ⟨false, false, 0, false, 0, ""⟩

def envPrimaryTimeout : CapEnv := ⟨false, true, 0, false, 0, ""⟩

def envThumbTimeout : CapEnv := ⟨false, false, 0, true, 0, ""⟩

/-- A sequence of successful captures (retention claim C5). -/
def captureMany (screenshot_max : Option Int) (delOk : String → Bool)
    (st : CapState) (paths : List String) : CapState :=
  paths.foldl (fun s p => (captureOnce false screenshot_max delOk envOk s p).1) st

/-! ## `run_live` startup phase (claim C2)

Lines 109-219: dependency check, channel/chatroom resolution, configuration
validation, screenshot setup, then opening the log, writing the
`session_start` record and starting the concurrent tasks. The phase is
embedded as a pure function from the parsed arguments and an environment (the
outcomes of the I/O collaborators) to the list of observable actions and an
optional early exit code (`some 1` = rejected before any log record or task;
`none` = the run proceeded into the concurrent phase).

`--chatroom-id` is parsed by `int(...)` on line 124; we model the argument as
the parsed integer (`none` = flag absent). A present flag is a nonempty string
and hence truthy on line 123; the value `0` is then caught by
`if not chatroom_id` on line 132. -/

/-- Python truthiness of an optional string (absent or empty = falsy). -/
def truthyStr : Option String → Bool
  | none => false
  | some s => s ≠ ""

/-- Python truthiness of an optional integer (absent or zero = falsy). -/
def truthyInt : Option Int → Bool
  | none => false
  | some n => n ≠ 0

/-- A present, non-positive optional integer. -/
def nonPosOpt : Option Int → Bool
  | none => false
  | some n => n ≤ 0

structure RunArgs where
  channel : Option String
  chatroom_id : Option Int
  duration : Option Int
  inactivity : Option Int
  screenshot_interval : Option Int
  screenshot_on_snapshot : Bool
  screenshot_dir : Option String
  screenshot_max : Option Int
  screenshot_format : Option String
  screenshot_embed : Bool
  screenshot_embed_width : Option Int
  stream_url : Option String
  deriving DecidableEq

structure RunEnv where
  websocketsAvailable : Bool
  resolveOk : Bool
  resolvedChatroomId : Option Int
  resolvedStreamUrl : Option String
  ffmpegFound : Bool
  deriving DecidableEq

inductive RunAction where
  | printed (msg : String)
  | openedLog
  | wroteSessionStart
  | startedTasks
  deriving DecidableEq

/-- `str.lower()`, character by character. (`String.toLower` is the same map
but its `String.mapAux` recursion does not reduce in the kernel, so the
character-list form is used.) -/
def strLower (s : String) : String := ⟨s.data.map Char.toLower⟩

/-- Line 144: `screenshot_format = (args.screenshot_format or "jpg").lower()`. -/
def effFmt (args : RunArgs) : String :=
  strLower (match args.screenshot_format with
   | none => "jpg"
   | some s => if s = "" then "jpg" else s)

/-- Lines 142-219 of `run_live`: configuration validation, screenshot setup,
and (when nothing is rejected) the transition into the concurrent phase. -/
def validateAndSetup (args : RunArgs) (env : RunEnv) : List RunAction × Option Int :=
  if args.screenshot_on_snapshot && truthyInt args.screenshot_interval then
    ([.printed "Use either --screenshot-interval or --screenshot-on-snapshot, not both."],
     some 1)
  else if !(effFmt args = "jpg" || effFmt args = "png") then
    ([.printed "Screenshot format must be jpg or png."], some 1)
  else if nonPosOpt args.screenshot_max then
    ([.printed "Screenshot max must be a positive number."], some 1)
  else if nonPosOpt args.screenshot_embed_width then
    ([.printed "Screenshot embed width must be a positive number."], some 1)
  else if truthyInt args.screenshot_interval || args.screenshot_on_snapshot then
    if nonPosOpt args.screenshot_interval then
      ([.printed "Screenshot interval must be a positive number of seconds."], some 1)
    else
      let streamUrl : Option String :=
        if truthyStr args.stream_url then args.stream_url
        else if truthyStr args.channel then env.resolvedStreamUrl
        else none
      if !truthyStr streamUrl then
        ([.printed "Screenshot enabled but stream URL is missing. Use --stream-url."],
         some 1)
      else if !env.ffmpegFound then
        ([.printed "ffmpeg not found. Install it or pass --ffmpeg-path to the executable."],
         some 1)
      else ([.openedLog, .wroteSessionStart, .startedTasks], none)
  else ([.openedLog, .wroteSessionStart, .startedTasks], none)

/-- Lines 109-219: the whole startup phase, including the pre-validation steps
(dependency import, argument presence, chatroom resolution). -/
def runLiveStart (args : RunArgs) (env : RunEnv) : List RunAction × Option Int :=
  if !env.websocketsAvailable then
    ([.printed "Missing dependency: websockets. Install with: pip install websockets"],
     some 1)
  else if !truthyStr args.channel && !args.chatroom_id.isSome then
    ([.printed "Provide --channel or --chatroom-id"], some 1)
  else
    let chatroomId : Option (Option Int) :=
      match args.chatroom_id with
      | some n => some (some n)
      | none => if env.resolveOk then some env.resolvedChatroomId else none
    match chatroomId with
    | none => ([.printed "Failed to resolve channel"], some 1)
    | some cid =>
      if !truthyInt cid then ([.printed "Chatroom id not found"], some 1)
      else validateAndSetup args env

/-- The pre-validation startup steps succeed: the websockets dependency is
present and a nonzero chatroom id is obtained (either given directly or
resolved from a provided channel name). -/
def StartupOk (args : RunArgs) (env : RunEnv) : Prop :=
  env.websocketsAvailable = true ∧
  match args.chatroom_id with
  | some n => n ≠ 0
  | none =>
    truthyStr args.channel = true ∧ env.resolveOk = true ∧
      truthyInt env.resolvedChatroomId = true

/-- The amended set of configurations the validation block (lines 151-166)
rejects: both trigger modes enabled together, a screenshot format outside
{jpg, png}, a non-positive screenshot-max, a non-positive embed width, or a
non-positive screenshot interval when the screenshot feature is actually
enabled (nonzero interval or on-snapshot mode). -/
def invalidScreenshotConfig (args : RunArgs) : Bool :=
  (args.screenshot_on_snapshot && truthyInt args.screenshot_interval) ||
  !(effFmt args = "jpg" || effFmt args = "png") ||
  nonPosOpt args.screenshot_max ||
  nonPosOpt args.screenshot_embed_width ||
  ((truthyInt args.screenshot_interval || args.screenshot_on_snapshot) &&
    nonPosOpt args.screenshot_interval)

/-! ## Derived predicates and concrete instances used by the theorems -/

/-- Size bounds linking the retained deque and the uniqueness set to the
lifetime total. -/
def SizeInv (st : AggState) : Prop :=
  st.events.length ≤ st.totalMessages ∧ st.uniqueUsers.length ≤ st.totalMessages

def sumCounts (l : List (String × Nat)) : Nat := (l.map Prod.snd).sum

/-- The lifetime total equals the sum of the per-actor counts, and the set of
actors ever seen is exactly the key sequence of the per-actor count mapping. -/
def CountsInv (st : AggState) : Prop :=
  st.totalMessages = sumCounts st.userCounts ∧
  st.uniqueUsers = st.userCounts.map Prod.fst

/-- The spec's scenario: users A, A, B, C all within 1 time unit. -/
def scenarioOps : List AggOp := [.msg 0 "A", .msg 0 "A", .msg 0 "B", .msg 0 "C"]

def envReady : RunEnv := ⟨true, true, some 99, some "https://example/playlist.m3u8", true⟩

/-- Both screenshot trigger modes enabled at once. -/
def bothTriggersArgs : RunArgs :=
  ⟨some "streamer", some 7, none, none, some 5, true, none, none, none, false,
   some 160, none⟩

/-- `--screenshot-interval 0`, `--duration -3`, `--inactivity 0`: three
non-positive numeric options. -/
def zeroIntervalArgs : RunArgs :=
  ⟨some "streamer", some 7, some (-3), some 0, some 0, false, none, none, none,
   false, some 160, none⟩

end KickLive

namespace KickLive

/-! ## Helper lemmas -/

theorem dropWhile_dropWhile_eq {α : Type} (p : α → Bool) (l : List α) :
    (l.dropWhile p).dropWhile p = l.dropWhile p := by
  induction l with
  | nil => rfl
  | cons a l ih =>
    by_cases h : p a
    · simp [List.dropWhile_cons, h, ih]
    · simp [List.dropWhile_cons, h]

theorem evict_pred_eq (now : Time) :
    (fun e : Time × String => decide (e.1 < now - 60)) =
      (fun e : Time × String => decide (60 < clampedAge now e.1)) := by
  funext e
  simp only [decide_eq_decide, clampedAge]
  constructor
  · intro h
    rw [lt_max_iff]
    left
    linarith
  · intro h
    rcases lt_max_iff.mp h with h' | h'
    · linarith
    · norm_num at h'

theorem sec_pred_eq (now : Time) :
    (fun e : Time × String => decide (now - 1 ≤ e.1)) =
      (fun e : Time × String => decide (clampedAge now e.1 ≤ 1)) := by
  funext e
  simp only [decide_eq_decide, clampedAge, max_le_iff]
  constructor
  · intro h
    exact ⟨by linarith, by norm_num⟩
  · rintro ⟨h, -⟩
    linarith

theorem sizeInv_init : SizeInv initState := ⟨Nat.le_refl 0, Nat.le_refl 0⟩

theorem sizeInv_record (st : AggState) (t : Time) (u : String) (h : SizeInv st) :
    SizeInv (record st t u) := by
  obtain ⟨h1, h2⟩ := h
  constructor
  · simpa [record] using Nat.add_le_add_right h1 1
  · simp only [record]
    split
    · exact Nat.le_succ_of_le h2
    · simpa using Nat.add_le_add_right h2 1

theorem sizeInv_query (st : AggState) (now : Time) (h : SizeInv st) :
    SizeInv (queryStep st now).2 := by
  obtain ⟨h1, h2⟩ := h
  refine ⟨?_, h2⟩
  calc (evict st.events now).length ≤ st.events.length :=
        (List.dropWhile_sublist _).length_le
    _ ≤ st.totalMessages := h1

theorem sizeInv_foldl (ops : List AggOp) :
    ∀ st, SizeInv st → SizeInv (ops.foldl applyOp st) := by
  induction ops with
  | nil => exact fun st h => h
  | cons op ops ih =>
    intro st h
    refine ih _ ?_
    cases op with
    | msg t u => exact sizeInv_record st t u h
    | query now => exact sizeInv_query st now h

theorem sumCounts_bump (l : List (String × Nat)) (u : String) :
    sumCounts (bump l u) = sumCounts l + 1 := by
  induction l with
  | nil => rfl
  | cons kc rest ih =>
    obtain ⟨k, c⟩ := kc
    by_cases h : k = u
    · simp [bump, h, sumCounts]
      omega
    · simp only [bump, if_neg h, sumCounts, List.map_cons, List.sum_cons] at ih ⊢
      omega

theorem keys_bump (l : List (String × Nat)) (u : String) :
    (bump l u).map Prod.fst =
      if u ∈ l.map Prod.fst then l.map Prod.fst else l.map Prod.fst ++ [u] := by
  induction l with
  | nil => simp [bump]
  | cons kc rest ih =>
    obtain ⟨k, c⟩ := kc
    by_cases h : k = u
    · simp [bump, h]
    · by_cases hm : u ∈ rest.map Prod.fst <;>
        simp [bump, h, ih, hm, Ne.symm h]

theorem bump_lookup (l : List (String × Nat)) (u : String) :
    lookupCount (bump l u) u = lookupCount l u + 1 := by
  induction l with
  | nil => simp [bump, lookupCount]
  | cons kc rest ih =>
    obtain ⟨k, c⟩ := kc
    by_cases h : k = u <;> simp [bump, lookupCount, h, ih]

theorem cadStep_inFlight (evs : List CadEvent) :
    ∀ s : CadState, s.inFlight = (if s.taskPending then 1 else 0) →
      (evs.foldl cadStep s).inFlight =
        (if (evs.foldl cadStep s).taskPending then 1 else 0) := by
  induction evs with
  | nil => exact fun s h => h
  | cons e evs ih =>
    intro s h
    refine ih _ ?_
    cases e with
    | tick =>
      by_cases hp : s.taskPending <;> simp [cadStep, hp] <;> simp [hp] at h <;> omega
    | finish =>
      by_cases hp : s.taskPending <;> simp [cadStep, hp] <;> simp [hp] at h <;> omega

/-! ## Claim theorems -/

/-- Claim C1: for every aggregator state and query time, the eviction and the
1-unit and 60-unit window computations of `stats_loop` agree exactly with the
same computations phrased over event ages clamped to nonnegative
(`max (now - t) 0`): an event timestamped at or after `now` is treated as
having age 0, so the window counts are computed only over nonnegative event
ages. -/
theorem queryStep_eq_clamped (st : AggState) (now : Time) :
    queryStep st now = queryStepClamped st now := by
  unfold queryStep queryStepClamped evict evictClamped
  rw [evict_pred_eq, sec_pred_eq]

/-- Claim C7: querying the aggregator twice with the same `now` and no
intervening `record` yields identical stats (and identical state): the second
eviction removes nothing further. -/
theorem queryStep_idempotent (st : AggState) (now : Time) :
    queryStep (queryStep st now).2 now = queryStep st now := by
  simp [queryStep, evict, dropWhile_dropWhile_eq]

/-- Claim C6: after eviction, the 1-unit-window count is at most the
60-unit-window count, which is at most the lifetime total; each sub-window's
unique-actor cardinality is at most that sub-window's event count; and the
lifetime unique count is at most the lifetime total — for every reachable
aggregator state and every query time. -/
theorem query_window_bounds (ops : List AggOp) (now : Time) :
    (queryStep (runOps ops) now).1.per_sec ≤ (queryStep (runOps ops) now).1.per_min ∧
    (queryStep (runOps ops) now).1.per_min ≤ (queryStep (runOps ops) now).1.msg_total ∧
    (queryStep (runOps ops) now).1.uniq_sec ≤ (queryStep (runOps ops) now).1.per_sec ∧
    (queryStep (runOps ops) now).1.uniq_min ≤ (queryStep (runOps ops) now).1.per_min ∧
    (queryStep (runOps ops) now).1.uniq_total ≤ (queryStep (runOps ops) now).1.msg_total := by
  have hinv : SizeInv (runOps ops) := sizeInv_foldl ops initState sizeInv_init
  refine ⟨?_, ?_, ?_, ?_, ?_⟩
  · simpa [queryStep] using List.length_filter_le _ _
  · simp only [queryStep]
    calc (evict (runOps ops).events now).length ≤ (runOps ops).events.length :=
          (List.dropWhile_sublist _).length_le
      _ ≤ (runOps ops).totalMessages := hinv.1
  · simp only [queryStep]
    calc (((evict (runOps ops).events now).filter fun e => now - 1 ≤ e.1).map
            Prod.snd).dedup.length
        ≤ (((evict (runOps ops).events now).filter fun e => now - 1 ≤ e.1).map
            Prod.snd).length := (List.dedup_sublist _).length_le
      _ = ((evict (runOps ops).events now).filter fun e => now - 1 ≤ e.1).length :=
          List.length_map _ _
  · simp only [queryStep]
    calc ((evict (runOps ops).events now).map Prod.snd).dedup.length
        ≤ ((evict (runOps ops).events now).map Prod.snd).length :=
          (List.dedup_sublist _).length_le
      _ = (evict (runOps ops).events now).length := List.length_map _ _
  · simpa [queryStep] using hinv.2

/-- Claim C9: the message-record operation of `listen` (one atomic step under
the lock) preserves the invariant that the lifetime total equals the sum of
the per-actor lifetime counts and that the sequence of actors ever seen is
exactly the key sequence of the per-actor count mapping (hence lifetime-unique
equals the number of keys). -/
theorem record_preserves_count_invariants (st : AggState) (t : Time) (u : String)
    (h : CountsInv st) : CountsInv (record st t u) := by
  obtain ⟨h1, h2⟩ := h
  constructor
  · simp [record, sumCounts_bump, h1]
  · simp only [record]
    rw [h2, keys_bump]

theorem record_preserves_count_invariants_witness :
    CountsInv (record initState 0 "alice") :=
  record_preserves_count_invariants initState 0 "alice" ⟨rfl, rfl⟩

/-- Claim C10: a chat-message frame whose sender object is missing or whose
username field is missing or empty is not skipped: it is recorded under the
sentinel actor `"anon"` (in the window deque, the lifetime total, the
uniqueness set and the per-actor counts) and the log record carries username
`"anon"`. -/
theorem listen_anon_fallback (st : AggState) (now : Time) (d : ChatData)
    (h : d.sender = none ∨
      ∃ s, d.sender = some s ∧ (s.username = none ∨ s.username = some "")) :
    (handleChatFrame st now d).2.username = "anon" ∧
    (handleChatFrame st now d).1.events = st.events ++ [(now, "anon")] ∧
    (handleChatFrame st now d).1.totalMessages = st.totalMessages + 1 ∧
    "anon" ∈ (handleChatFrame st now d).1.uniqueUsers ∧
    lookupCount (handleChatFrame st now d).1.userCounts "anon" =
      lookupCount st.userCounts "anon" + 1 := by
  have hu : extractUsername d = "anon" := by
    rcases h with h | ⟨s, hs, h⟩
    · simp [extractUsername, h]
    · rcases h with h' | h' <;> simp [extractUsername, hs, h']
  refine ⟨?_, ?_, ?_, ?_, ?_⟩
  · simp [handleChatFrame, hu]
  · simp [handleChatFrame, record, hu]
  · simp [handleChatFrame, record, hu]
  · simp only [handleChatFrame, record, hu]
    split
    · assumption
    · simp
  · simp [handleChatFrame, record, hu, bump_lookup]

theorem listen_anon_fallback_witness :
    (handleChatFrame initState 0 ⟨none, some "hi"⟩).2.username = "anon" ∧
    (handleChatFrame initState 0 ⟨none, some "hi"⟩).1.events =
      initState.events ++ [(0, "anon")] ∧
    (handleChatFrame initState 0 ⟨none, some "hi"⟩).1.totalMessages =
      initState.totalMessages + 1 ∧
    "anon" ∈ (handleChatFrame initState 0 ⟨none, some "hi"⟩).1.uniqueUsers ∧
    lookupCount (handleChatFrame initState 0 ⟨none, some "hi"⟩).1.userCounts "anon" =
      lookupCount initState.userCounts "anon" + 1 :=
  listen_anon_fallback initState 0 ⟨none, some "hi"⟩ (Or.inl rfl)

/-- Claim C4: a snapshot tick starts a new capture only when no previously
started capture task is pending (it leaves the state unchanged otherwise), and
along every sequence of ticks and completions the number of concurrently
running cadence-path capture invocations never exceeds one. -/
theorem snapshot_capture_at_most_one_in_flight :
    (∀ s : CadState, s.taskPending = true → cadStep s .tick = s) ∧
    ∀ evs : List CadEvent, (cadRun evs).inFlight ≤ 1 := by
  constructor
  · intro s h
    simp [cadStep, h]
  · intro evs
    have h := cadStep_inFlight evs cadInit rfl
    rw [cadRun]
    rw [h]
    split <;> omega

theorem snapshot_capture_at_most_one_in_flight_witness :
    cadStep ⟨true, 1⟩ .tick = ⟨true, 1⟩ ∧
    (cadRun [.tick, .tick, .finish, .tick]).inFlight ≤ 1 :=
  ⟨snapshot_capture_at_most_one_in_flight.1 ⟨true, 1⟩ rfl,
   snapshot_capture_at_most_one_in_flight.2 _⟩

/-- Claim C3 (evidence of the code bug): when the primary capture times out,
the primary process is killed and the failure is non-fatal (the stop signal
stays unset); but when the thumbnail re-encode times out, the handler kills
the already-finished primary process handle and the timed-out thumbnail
process is never terminated — contradicting the claim for the 10-unit bound. -/
theorem captureOnce_timeout_divergence :
    ((captureOnce false none (fun _ => true) envPrimaryTimeout capInit "shot.jpg").2 =
        [.spawnPrimary, .killPrimary] ∧
      (captureOnce false none (fun _ => true) envPrimaryTimeout capInit
          "shot.jpg").1.stopSet = false) ∧
    (ProcAction.killThumb ∉
        (captureOnce true none (fun _ => true) envThumbTimeout capInit "shot.jpg").2 ∧
      ProcAction.spawnThumb ∈
        (captureOnce true none (fun _ => true) envThumbTimeout capInit "shot.jpg").2 ∧
      (captureOnce true none (fun _ => true) envThumbTimeout capInit
          "shot.jpg").1.stopSet = false) := by
  refine ⟨⟨rfl, rfl⟩, ?_, ?_, rfl⟩
  · simp [captureOnce, envThumbTimeout, capInit]
  · simp [captureOnce, envThumbTimeout, capInit]

/-- Claim C2 (amended): when the pre-validation startup steps succeed, every
configuration in the rejected set — both screenshot trigger modes enabled
together, a screenshot format outside {jpg, png}, a non-positive
screenshot-max, a non-positive embed width, or a non-positive screenshot
interval while the screenshot feature is enabled — makes `run_live` print a
one-line reason and return exit code 1 before any log record is written and
before any concurrent task is started. (The code does not validate `duration`
or `inactivity`, and an interval of exactly 0 without the on-snapshot flag is
treated as feature-disabled rather than rejected.) -/
theorem run_rejects_invalid_screenshot_config (args : RunArgs) (env : RunEnv)
    (hok : StartupOk args env) (hbad : invalidScreenshotConfig args = true) :
    ∃ msg, runLiveStart args env = ([.printed msg], some 1) := by
  have hval : ∃ msg, validateAndSetup args env = ([.printed msg], some 1) := by
    unfold validateAndSetup
    unfold invalidScreenshotConfig at hbad
    split_ifs with h1 h2 h3 h4 h5 h6 h7 h8 <;>
      first
        | exact ⟨_, rfl⟩
        | (exfalso; simp_all)
  obtain ⟨hw, hc⟩ := hok
  obtain ⟨msg, hmsg⟩ := hval
  refine ⟨msg, ?_⟩
  unfold runLiveStart
  cases hcid : args.chatroom_id with
  | some n =>
    rw [hcid] at hc
    simp [hw, hcid, truthyInt, hc, hmsg]
  | none =>
    rw [hcid] at hc
    obtain ⟨hch, hres, hid⟩ := hc
    simp [hw, hcid, hch, hres, hid, hmsg]

theorem run_rejects_invalid_screenshot_config_witness :
    ∃ msg, runLiveStart bothTriggersArgs envReady = ([.printed msg], some 1) :=
  run_rejects_invalid_screenshot_config bothTriggersArgs envReady
    ⟨rfl, show (7 : Int) ≠ 0 by decide⟩ (by decide)

/-- Claim C2 counterexample: with `--screenshot-interval 0`, `--duration -3`
and `--inactivity 0` — all non-positive numeric options — `run_live` rejects
nothing: it opens the log, writes the `session_start` record and starts the
concurrent tasks, because an interval of 0 is falsy and skips the
interval-positivity check, and duration/inactivity are never validated. -/
theorem zero_interval_not_rejected :
    runLiveStart zeroIntervalArgs envReady =
      ([.openedLog, .wroteSessionStart, .startedTasks], none) ∧
    nonPosOpt zeroIntervalArgs.screenshot_interval = true ∧
    nonPosOpt zeroIntervalArgs.duration = true ∧
    nonPosOpt zeroIntervalArgs.inactivity = true := by
  decide

/-- Inserting an element into a list never reorders the existing elements,
and it lands in front of every element of equal count: the subsequence of
entries with any fixed count is preserved as by consing. -/
theorem filter_orderedInsert (x : String × Nat) (c : Nat) (s : List (String × Nat)) :
    (List.orderedInsert countGE x s).filter (fun e => e.2 = c) =
      if x.2 = c then x :: s.filter (fun e => e.2 = c)
      else s.filter (fun e => e.2 = c) := by
  induction s with
  | nil => by_cases hx : x.2 = c <;> simp [List.orderedInsert, hx]
  | cons y s ih =>
    by_cases hr : countGE x y
    · by_cases hx : x.2 = c <;> simp [List.orderedInsert, hr, hx]
    · by_cases hy : y.2 = c
      · have hx : ¬x.2 = c := by
          simp only [countGE, not_le] at hr
          omega
        simp [List.orderedInsert, hr, hx, hy, ih]
      · by_cases hx : x.2 = c <;> simp [List.orderedInsert, hr, hx, hy, ih]

/-- Stability of the sort on line 248: for every count value, the entries
carrying that count appear in the sorted output in exactly their first-seen
(dict insertion) order. -/
theorem insertionSort_filter_count (counts : List (String × Nat)) (c : Nat) :
    (List.insertionSort countGE counts).filter (fun e => e.2 = c) =
      counts.filter (fun e => e.2 = c) := by
  induction counts with
  | nil => rfl
  | cons x l ih =>
    rw [List.insertionSort, filter_orderedInsert]
    by_cases hx : x.2 = c <;> simp [hx, ih]

/-- Claim C8: line 248 returns the top 3 actors of the lifetime per-actor
count mapping: the prefix of length 3 of a permutation of the entries that is
sorted by count descending and, for each fixed count, preserves first-seen
order (Python's stable sort). Concretely, for the scenario A, A, B, C within
1 time unit, a query at that instant returns per_min=4, per_sec=4,
uniq_min=3, uniq_sec=3, total=4, uniq_total=3 and top actors
A(2), B(1), C(1). -/
theorem topUsers_ranking_and_scenario :
    (∀ counts : List (String × Nat),
        topUsers counts = (List.insertionSort countGE counts).take 3 ∧
        (List.insertionSort countGE counts).Perm counts ∧
        (List.insertionSort countGE counts).Sorted countGE ∧
        ∀ c : Nat,
          (List.insertionSort countGE counts).filter (fun e => e.2 = c) =
            counts.filter (fun e => e.2 = c)) ∧
    (queryStep (runOps scenarioOps) 0).1 =
      ⟨4, 4, 3, 3, 4, 3, [("A", 2), ("B", 1), ("C", 1)]⟩ := by
  refine ⟨fun counts =>
    ⟨rfl, List.perm_insertionSort countGE counts,
      List.sorted_insertionSort countGE counts,
      fun c => insertionSort_filter_count counts c⟩, ?_⟩
  have hdedup : (["A", "A", "B", "C"] : List String).dedup = ["A", "B", "C"] := by
    rw [List.dedup_cons_of_mem (by simp), List.dedup_cons_of_not_mem (by simp),
      List.dedup_cons_of_not_mem (by simp), List.dedup_cons_of_not_mem (by simp),
      List.dedup_nil]
  norm_num [queryStep, evict, runOps, scenarioOps, applyOp, record, initState, bump,
    topUsers, List.insertionSort, List.orderedInsert, countGE, List.dropWhile,
    List.filter, hdedup]
  decide

/-- The FIFO left by the eviction loop does not depend on the deletion oracle
or on the disk contents: a failed `unlink` is swallowed and the path is still
popped. -/
theorem evictOld_fst_indep (maxI : Int) (delOk delOk' : String → Bool) :
    ∀ fifo disk disk' : List String,
      (evictOld maxI delOk fifo disk).1 = (evictOld maxI delOk' fifo disk').1 := by
  intro fifo
  induction fifo with
  | nil => intro disk disk'; rfl
  | cons old rest ih =>
    intro disk disk'
    by_cases h : maxI < ((old :: rest).length : Int)
    · simp only [evictOld, if_pos h]
      exact ih _ _
    · simp only [evictOld, if_neg h]

theorem evictOld_of_le (maxI : Int) (delOk : String → Bool) (fifo disk : List String)
    (h : (fifo.length : Int) ≤ maxI) : evictOld maxI delOk fifo disk = (fifo, disk) := by
  cases fifo with
  | nil => rfl
  | cons old rest => simp only [evictOld, if_neg (not_lt.mpr h)]

theorem evictOld_one_over (maxI : Int) (delOk : String → Bool) (a : String)
    (rest disk : List String) (hlt : maxI < ((a :: rest).length : Int))
    (hle : (rest.length : Int) ≤ maxI) :
    evictOld maxI delOk (a :: rest) disk =
      (rest, if delOk a then disk.erase a else disk) := by
  simp only [evictOld, if_pos hlt]
  exact evictOld_of_le maxI delOk rest _ hle

/-- A successful primary capture without thumbnail embedding: the file is
written, the latest-capture reference is updated, and the retention loop runs
on the FIFO and the disk. -/
theorem captureOnce_success (N : Int) (delOk : String → Bool) (st : CapState)
    (p : String) (hN : N ≠ 0) :
    captureOnce false (some N) delOk envOk st p =
      ({ st with
          latest_screenshot := some p
          screenshot_paths :=
            (evictOld N delOk (st.screenshot_paths ++ [p]) (st.disk ++ [p])).1
          disk := (evictOld N delOk (st.screenshot_paths ++ [p]) (st.disk ++ [p])).2 },
       [.spawnPrimary]) := by
  simp [captureOnce, envOk, hN]

/-- While the FIFO stays within its capacity, captures only append. -/
theorem captureMany_fill (N : Int) (delOk : String → Bool) (hN : N ≠ 0) :
    ∀ (ps : List String) (st : CapState),
      ((st.screenshot_paths.length : Int) + (ps.length : Int)) ≤ N →
      (captureMany (some N) delOk st ps).screenshot_paths = st.screenshot_paths ++ ps ∧
      (captureMany (some N) delOk st ps).disk = st.disk ++ ps ∧
      (captureMany (some N) delOk st ps).stopSet = st.stopSet := by
  intro ps
  induction ps with
  | nil => intro st h; simp [captureMany]
  | cons p ps ih =>
    intro st h
    have hlen : (((st.screenshot_paths ++ [p]).length : Nat) : Int) ≤ N := by
      simp only [List.length_append, List.length_cons, List.length_nil] at h ⊢
      push_cast at h ⊢
      omega
    have hunfold : captureMany (some N) delOk st (p :: ps) =
        captureMany (some N) delOk (captureOnce false (some N) delOk envOk st p).1 ps :=
      rfl
    rw [hunfold, captureOnce_success N delOk st p hN]
    rw [evictOld_of_le N delOk _ _ hlen]
    obtain ⟨h1, h2, h3⟩ := ih
      { st with
        latest_screenshot := some p
        screenshot_paths := st.screenshot_paths ++ [p]
        disk := st.disk ++ [p] }
      (by
        simp only [List.length_append, List.length_cons, List.length_nil] at h ⊢
        push_cast at h ⊢
        omega)
    refine ⟨?_, ?_, ?_⟩
    · rw [h1]
      simp
    · rw [h2]
      simp
    · rw [h3]

/-- Every successful capture updates the latest-capture reference, so after a
nonempty run it points at the last written file. -/
theorem captureMany_latest (N : Int) (delOk : String → Bool) (hN : N ≠ 0) :
    ∀ (ps : List String) (st : CapState), ps ≠ [] →
      (captureMany (some N) delOk st ps).latest_screenshot = ps.getLast? := by
  intro ps
  induction ps with
  | nil => intro st h; exact absurd rfl h
  | cons p ps ih =>
    intro st _
    cases ps with
    | nil =>
      rw [show captureMany (some N) delOk st [p] =
            (captureOnce false (some N) delOk envOk st p).1 from rfl,
        captureOnce_success N delOk st p hN]
      rfl
    | cons q ps' =>
      rw [show captureMany (some N) delOk st (p :: q :: ps') =
            captureMany (some N) delOk (captureOnce false (some N) delOk envOk st p).1
              (q :: ps') from rfl,
        ih _ (by simp), List.getLast?_cons_cons]

/-- Claim C5: with a configured maximum of N retained captures, after N+1
successful captures from an empty session the FIFO holds exactly the last N
paths (the evicted one is the oldest) regardless of whether deletions succeed,
the latest-capture reference points at the last path, the stop signal is
untouched, and — when deletions succeed — exactly those N files remain on
disk. -/
theorem retention_after_capacity_exceeded (N : Nat) (ps : List String)
    (hN : 1 ≤ N) (hlen : ps.length = N + 1) :
    (captureMany (some (N : Int)) (fun _ => true) capInit ps).disk = ps.drop 1 ∧
    ∀ delOk : String → Bool,
      (captureMany (some (N : Int)) delOk capInit ps).screenshot_paths = ps.drop 1 ∧
      (captureMany (some (N : Int)) delOk capInit ps).latest_screenshot = ps.getLast? ∧
      (captureMany (some (N : Int)) delOk capInit ps).stopSet = false := by
  have hNne : (N : Int) ≠ 0 := by
    omega
  have hne : ps ≠ [] := by
    intro h
    rw [h] at hlen
    simp at hlen
  set z := ps.getLast hne with hz
  set q := ps.dropLast with hq
  have hqz : q ++ [z] = ps := List.dropLast_append_getLast hne
  have hql : q.length = N := by
    rw [hq, List.length_dropLast, hlen]
    omega
  have hqne : q ≠ [] := by
    intro h
    rw [h] at hql
    simp at hql
    omega
  obtain ⟨a, q', haq⟩ := List.exists_cons_of_ne_nil hqne
  have step : ∀ delOk : String → Bool,
      captureMany (some (N : Int)) delOk capInit ps =
        (captureOnce false (some (N : Int)) delOk envOk
          (captureMany (some (N : Int)) delOk capInit q) z).1 := by
    intro delOk
    conv_lhs => rw [← hqz]
    rw [captureMany, captureMany, List.foldl_append]
    rfl
  have fillq : ∀ delOk : String → Bool,
      (captureMany (some (N : Int)) delOk capInit q).screenshot_paths = q ∧
      (captureMany (some (N : Int)) delOk capInit q).disk = q ∧
      (captureMany (some (N : Int)) delOk capInit q).stopSet = false := by
    intro delOk
    have := captureMany_fill (N : Int) delOk hNne q capInit
      (by simp [capInit, hql])
    simpa [capInit] using this
  have hlt : ((N : Nat) : Int) < ((q ++ [z]).length : Int) := by
    simp [hql]
  have hle : (((q' ++ [z]).length : Nat) : Int) ≤ (N : Int) := by
    have : q'.length + 1 = N := by
      have := hql
      rw [haq] at this
      simpa using this
    simp only [List.length_append, List.length_cons, List.length_nil]
    push_cast
    omega
  have hdrop : q' ++ [z] = ps.drop 1 := by
    rw [← hqz, haq]
    simp
  have evEq : ∀ delOk : String → Bool,
      evictOld (N : Int) delOk (q ++ [z]) (q ++ [z]) =
        (q' ++ [z], if delOk a then ((q ++ [z]).erase a) else (q ++ [z])) := by
    intro delOk
    rw [haq, List.cons_append]
    rw [evictOld_one_over (N : Int) delOk a (q' ++ [z]) _ (by rw [haq, List.cons_append] at hlt; simpa using hlt) hle]
  refine ⟨?_, fun delOk => ⟨?_, ?_, ?_⟩⟩
  · obtain ⟨f1, f2, f3⟩ := fillq (fun _ => true)
    rw [step (fun _ => true), captureOnce_success _ _ _ _ hNne]
    simp only [f1, f2]
    rw [evEq (fun _ => true)]
    have herase : (q ++ [z]).erase a = List.drop 1 ps := by
      rw [haq, List.cons_append, List.erase_cons_head]
      exact hdrop
    simp [herase]
  · obtain ⟨f1, f2, f3⟩ := fillq delOk
    rw [step delOk, captureOnce_success _ _ _ _ hNne]
    simp only [f1, f2]
    rw [evEq delOk]
    exact hdrop
  · exact captureMany_latest (N : Int) delOk hNne ps capInit hne
  · obtain ⟨f1, f2, f3⟩ := fillq delOk
    rw [step delOk, captureOnce_success _ _ _ _ hNne]
    exact f3

theorem retention_after_capacity_exceeded_witness :
    (captureMany (some (2 : Int)) (fun _ => true) capInit ["a.jpg", "b.jpg", "c.jpg"]).disk =
      ["a.jpg", "b.jpg", "c.jpg"].drop 1 ∧
    (captureMany (some (2 : Int)) (fun _ => false) capInit
        ["a.jpg", "b.jpg", "c.jpg"]).screenshot_paths =
      ["a.jpg", "b.jpg", "c.jpg"].drop 1 :=
  ⟨(retention_after_capacity_exceeded 2 ["a.jpg", "b.jpg", "c.jpg"] (by decide)
      (by decide)).1,
   ((retention_after_capacity_exceeded 2 ["a.jpg", "b.jpg", "c.jpg"] (by decide)
      (by decide)).2 (fun _ => false)).1⟩

end KickLive
